import Mathlib

/-!
Verification of the Disclose Framework agent-integration tool
(`disclose_tool.py`): a shallow embedding of its data model and
operations, with theorems about domain normalization, signal
extraction, filtering, scoring, value formatting and the tool-call
handler.

Python dynamic values are embedded as a `Json` inductive; Python
`dict`s are association lists with unique keys (insertion order is
significant, as in CPython); machine exceptions are modelled by the
`Except String` error channel — a `.error` result of a modelled
function corresponds to the Python code raising an exception to its
caller.
-/

set_option maxRecDepth 4000

/-- A parsed JSON value (also standing for the Python runtime values
produced by `json.loads`: JSON `null` and Python `None` coincide as
`Json.null`). -/
inductive Json where
  | null : Json
  | bool (b : Bool) : Json
  | num (q : ℚ) : Json
  | str (s : String) : Json
  | arr (xs : List Json) : Json
  | obj (kvs : List (String × Json)) : Json

/-- Python truthiness (`bool(x)`) on embedded values: `None`, `False`,
zero, the empty string, the empty list and the empty dict are falsy. -/
def truthy : Json → Bool
  | Json.null => false
  | Json.bool b => b
  | Json.num q => decide (q ≠ 0)
  | Json.str s => decide (s ≠ "")
  | Json.arr xs => !xs.isEmpty
  | Json.obj kvs => !kvs.isEmpty

/-- Python `dict.get` / `d[k]` lookup on an association list:
first match wins (actual Python dicts have unique keys). -/
def dictGet (ps : List (String × Json)) (k : String) : Option Json :=
  match ps with
  | [] => none
  | (k', v) :: rest => if k' = k then some v else dictGet rest k

/-- Python `d[k] = v` on an association list: if the key is present its
value is updated in place (position preserved), otherwise the pair is
appended at the end — CPython insertion-order semantics. -/
def dictInsert (d : List (String × Json)) (k : String) (v : Json) : List (String × Json) :=
  if (dictGet d k).isSome then
    d.map (fun p => if p.1 = k then (k, v) else p)
  else
    d ++ [(k, v)]

/-- Character-list prefix test (the semantics of Python `str.startswith`). -/
def charsPref : List Char → List Char → Bool
  | [], _ => true
  | _ :: _, [] => false
  | p :: ps, c :: cs => if p = c then charsPref ps cs else false

/-- Python `s.startswith(p)`. -/
def pyStartsWith (s p : String) : Bool :=
  charsPref p.data s.data

/-- Python `s.removeprefix(p)`: drop `p` from the front of `s` when it
is a prefix, otherwise return `s` unchanged. -/
def removeprefixPy (s p : String) : String :=
  if pyStartsWith s p then String.mk (s.data.drop p.data.length) else s

/-- Python `s.rstrip("/")`: remove every trailing `/` character. -/
def pyRstripSlash (s : String) : String :=
  String.mk ((s.data.reverse.dropWhile (fun c => c = '/')).reverse)

/-- The domain normalization performed by `fetch_signals`:
`merchant_domain.rstrip("/").removeprefix("https://").removeprefix("http://")`. -/
def normalizeDomain (merchant_domain : String) : String :=
  removeprefixPy (removeprefixPy (pyRstripSlash merchant_domain) "https://") "http://"

/-- `WELL_KNOWN_PATH` from the source. -/
def WELL_KNOWN_PATH : String := "/.well-known/disclose.json"

/-- The URL constructed by `fetch_signals`. -/
def targetUrl (merchant_domain : String) : String :=
  "https://" ++ normalizeDomain merchant_domain ++ WELL_KNOWN_PATH

/-- The body of the root-keys loop and the per-node loop of
`_extract_signals`: walk the pairs of a dict in order and write every
`disclose:`-prefixed key into the accumulating signals dict. -/
def addSignals (s : List (String × Json)) : List (String × Json) → List (String × Json)
  | [] => s
  | (k, v) :: rest =>
      addSignals (if pyStartsWith k "disclose:" then dictInsert s k v else s) rest

/-- Python iteration `for node in value` over an embedded value:
lists yield their elements, dicts their keys, strings their one-character
substrings; `None`, booleans and numbers are not iterable (`TypeError`). -/
def iterNodes : Json → Except String (List Json)
  | Json.arr xs => .ok xs
  | Json.obj kvs => .ok (kvs.map (fun p => Json.str p.1))
  | Json.str s => .ok (s.data.map (fun c => Json.str (String.singleton c)))
  | _ => .error "TypeError: object is not iterable"

/-- The `@graph` loop of `_extract_signals`: every element that is a
dict contributes its `disclose:`-prefixed keys; other elements are
skipped by the `isinstance(node, dict)` check. -/
def graphFold (s : List (String × Json)) : List Json → List (String × Json)
  | [] => s
  | node :: rest =>
      graphFold (match node with
                 | Json.obj nps => addSignals s nps
                 | _ => s) rest

/-- `_extract_signals` restricted to a dict argument: root-level
`disclose:` keys first, then the keys of dict nodes of
`raw.get("@graph", [])`. Iterating a non-iterable `@graph` value raises. -/
def extractFromObj (pairs : List (String × Json)) : Except String (List (String × Json)) :=
  let root := addSignals [] pairs
  match dictGet pairs "@graph" with
  | none => .ok root
  | some g =>
      match iterNodes g with
      | .error e => .error e
      | .ok ns => .ok (graphFold root ns)

/-- `_extract_signals(raw)`: on a non-dict argument, `raw.items()`
raises `AttributeError`. -/
def extract_signals : Json → Except String (List (String × Json))
  | Json.obj pairs => extractFromObj pairs
  | _ => .error "AttributeError: object has no attribute items"

/-- The verifier expression of `fetch_signals`:
`raw.get("disclose:verifier", {}).get("@id") or raw.get("disclose:verifier")`.
When the stored value is a dict, `x or y` returns `x` when `x` is truthy
and `y` otherwise; when the key is absent the default `{}` makes the
whole expression `None`; a stored non-dict value has no `.get` method and
raises `AttributeError`. -/
def computeVerifier (pairs : List (String × Json)) : Except String Json :=
  match dictGet pairs "disclose:verifier" with
  | none => .ok Json.null
  | some (Json.obj vps) =>
      let a := (dictGet vps "@id").getD Json.null
      .ok (if truthy a then a else Json.obj vps)
  | some _ => .error "AttributeError: object has no attribute get"

/-- The filtering step of `fetch_signals`:
`{k: v for k, v in all_signals.items() if k in signals} if signals else all_signals`.
Python truthiness makes both `None` and the empty list mean "no filter". -/
def applyFilter (signals : Option (List String)) (allSignals : List (String × Json)) :
    List (String × Json) :=
  match signals with
  | none => allSignals
  | some l => if l.isEmpty then allSignals else allSignals.filter (fun kv => decide (kv.1 ∈ l))

/-- The outcome of the `try` block of `fetch_signals`: either one of the
caught exception classes, or a successfully parsed JSON document. This
models the HTTP transport as an oracle supplied to the pure core. -/
inductive FetchOutcome where
  | httpError (code : Nat) : FetchOutcome
  | urlError (reason : String) : FetchOutcome
  | jsonError : FetchOutcome
  | otherError (msg : String) : FetchOutcome
  | doc (raw : Json) : FetchOutcome

/-- The `DiscloseSignals` dataclass. `verifier` and `verified_at` hold
whatever Python value was assigned (`Json.null` standing for `None`);
`error` is `none` when the fetch succeeded. -/
structure DiscloseSignals where
  merchant_domain : String
  raw : Json
  signals : List (String × Json)
  verifier : Json
  verified_at : Json
  error : Option String

/-- `fetch_signals(merchant_domain, signals)` with the network modelled
by a `FetchOutcome`. A `.error` result models an exception escaping to
the caller (the extraction and verifier expressions run outside the
`try` block of the source). -/
def fetch_signals (merchant_domain : String) (signals : Option (List String))
    (response : FetchOutcome) : Except String DiscloseSignals :=
  let domain := normalizeDomain merchant_domain
  match response with
  | .httpError code =>
      .ok ⟨domain, Json.obj [], [], Json.null, Json.null,
           some ("HTTP " ++ toString code ++ ": merchant may not support Disclose Framework")⟩
  | .urlError reason =>
      .ok ⟨domain, Json.obj [], [], Json.null, Json.null, some reason⟩
  | .jsonError =>
      .ok ⟨domain, Json.obj [], [], Json.null, Json.null, some "Invalid JSON at endpoint"⟩
  | .otherError msg =>
      .ok ⟨domain, Json.obj [], [], Json.null, Json.null, some msg⟩
  | .doc (Json.obj pairs) =>
      match extractFromObj pairs with
      | .error e => .error e
      | .ok allSignals =>
          match computeVerifier pairs with
          | .error e => .error e
          | .ok v =>
              .ok ⟨domain, Json.obj pairs, applyFilter signals allSignals, v,
                   (dictGet pairs "disclose:verified_at").getD Json.null, none⟩
  | .doc _ => .error "AttributeError: object has no attribute items"

/-- Round a rational to the nearest integer, halves up. (CPython's
`round` and string formatting round the underlying binary float
half-to-even; no claim under verification sits at a tie, so only the
nearest-integer behavior matters.) -/
def roundHalfUp (q : ℚ) : ℤ :=
  Int.fdiv (q + 1 / 2).num (q + 1 / 2).den

def round3 (q : ℚ) : ℚ :=
  ((roundHalfUp (q * 1000) : ℤ) : ℚ) / 1000

/-- Python `float(value)` on the document values that the scorer can
meet: numbers pass through, booleans become `1.0`/`0.0`; `None`, lists
and dicts raise `TypeError`. (CPython additionally parses numeric
strings; that coercion is not modelled — the claims quantify over
numeric values only.) -/
def pyFloat : Json → Except String ℚ
  | Json.num q => .ok q
  | Json.bool b => .ok (if b then 1 else 0)
  | _ => .error "TypeError: float() argument"

/-- The `weights` table of `DiscloseSignals.score`:
key, `(max_value, weight)`. -/
def scoreWeights : List (String × ℚ × ℚ) :=
  [("disclose:review_rating", (5, 35 / 100)),
   ("disclose:return_rate", (1, -(25 / 100))),
   ("disclose:dispute_rate", (1, -(20 / 100))),
   ("disclose:fulfillment_days_p50", (30, -(20 / 100)))]

/-- One iteration of the scoring loop: skip an absent key, otherwise
convert the value with `float`, normalize by the max value and
accumulate the (possibly inverted) contribution and `abs(w)`. -/
def scoreStep (signals : List (String × Json)) (acc : ℚ × ℚ) (kw : String × ℚ × ℚ) :
    Except String (ℚ × ℚ) :=
  match dictGet signals kw.1 with
  | none => .ok acc
  | some v =>
      match pyFloat v with
      | .error e => .error e
      | .ok q =>
          let normalized := q / kw.2.1
          let w := kw.2.2
          if w < 0 then
            .ok (acc.1 + |w| * (1 - normalized), acc.2 + |w|)
          else
            .ok (acc.1 + w * normalized, acc.2 + |w|)

/-- The scoring loop over the fixed weights table. -/
def scoreLoop (signals : List (String × Json)) :
    List (String × ℚ × ℚ) → ℚ × ℚ → Except String (ℚ × ℚ)
  | [], acc => .ok acc
  | kw :: rest, acc =>
      match scoreStep signals acc kw with
      | .error e => .error e
      | .ok acc' => scoreLoop signals rest acc'

/-- `DiscloseSignals.score`: `round(score / total_weight, 3)` when any
recognized key was present, `None` (here the inner `none`) otherwise. -/
def score (signals : List (String × Json)) : Except String (Option ℚ) :=
  match scoreLoop signals scoreWeights (0, 0) with
  | .error e => .error e
  | .ok acc => .ok (if acc.2 > 0 then some (round3 (acc.1 / acc.2)) else none)

deriving instance DecidableEq for Except

/-- Spec-side term for one scored key, written from the claim:
`normalize = raw / max`; an inverted key contributes
`|weight| * (1 - normalize)`, a direct key `weight * normalize`; the
second component is the `|weight|` added to the denominator. A key that
is absent (or whose value is not a number, a case outside the claim)
contributes `(0, 0)`. -/
def specTermNum (signals : List (String × Json)) (k : String) (maxv absw : ℚ)
    (inverted : Bool) : ℚ × ℚ :=
  match dictGet signals k with
  | some (Json.num q) =>
      ((if inverted then absw * (1 - q / maxv) else absw * (q / maxv)), absw)
  | _ => (0, 0)

/-- Spec-side contribution sum over the four scored keys, with the
constants of the claim. -/
def specContribution (signals : List (String × Json)) : ℚ :=
  (specTermNum signals "disclose:review_rating" 5 (35 / 100) false).1 +
  (specTermNum signals "disclose:return_rate" 1 (25 / 100) true).1 +
  (specTermNum signals "disclose:dispute_rate" 1 (20 / 100) true).1 +
  (specTermNum signals "disclose:fulfillment_days_p50" 30 (20 / 100) true).1

/-- Spec-side `|weight|` sum over the four scored keys. -/
def specWeight (signals : List (String × Json)) : ℚ :=
  (specTermNum signals "disclose:review_rating" 5 (35 / 100) false).2 +
  (specTermNum signals "disclose:return_rate" 1 (25 / 100) true).2 +
  (specTermNum signals "disclose:dispute_rate" 1 (20 / 100) true).2 +
  (specTermNum signals "disclose:fulfillment_days_p50" 30 (20 / 100) true).2

/-- The four keys recognized by the scorer. -/
def scoredKeys : List String :=
  ["disclose:review_rating", "disclose:return_rate", "disclose:dispute_rate",
   "disclose:fulfillment_days_p50"]

/-- Left-pad a digit string with zeros to `d` characters. -/
def padZeros (d : Nat) (s : String) : String :=
  String.mk (List.replicate (d - s.data.length) '0') ++ s

/-- Fixed-point rendering of a rational with `d` decimal places —
the semantics of a Python format specifier `:.<d>f`. -/
def ratToFixed (q : ℚ) (d : Nat) : String :=
  let scaled := roundHalfUp (q * 10 ^ d)
  let sign := if scaled < 0 then "-" else ""
  let n := scaled.natAbs
  sign ++ toString (n / 10 ^ d) ++ "." ++ padZeros d (toString (n % 10 ^ d))

/-- Smallest number of decimal places (at least the starting value)
that writes `q` exactly, searched with bounded fuel. -/
def decExpSearch (q : ℚ) : Nat → Nat → Nat
  | 0, d => d
  | fuel + 1, d => if (q * 10 ^ d).den = 1 then d else decExpSearch q fuel (d + 1)

/-- Python `str()` of a float, for values with a short exact decimal
expansion (every document value the claims touch): integral values
render with a trailing `.0`, other values with their minimal exact
decimals. (CPython prints the shortest decimal string that round-trips
the binary double; for the values under verification these coincide.) -/
def pyNumRepr (q : ℚ) : String :=
  if q.den = 1 then toString q.num ++ ".0"
  else ratToFixed q (decExpSearch q 17 1)

/-- A single quote character (for Python `repr` of strings). -/
def pyQuote : String := String.singleton (Char.ofNat 39)

mutual

/-- Python `repr()` of an embedded value (string escaping is not
modelled; no claim renders a string needing escapes). -/
def pyRepr : Json → String
  | Json.null => "None"
  | Json.bool b => if b then "True" else "False"
  | Json.num q => pyNumRepr q
  | Json.str s => pyQuote ++ s ++ pyQuote
  | Json.arr xs => "[" ++ pyReprList xs ++ "]"
  | Json.obj kvs => "\x7b" ++ pyReprPairs kvs ++ "\x7d"

/-- Comma-separated `repr`s of list elements. -/
def pyReprList : List Json → String
  | [] => ""
  | [x] => pyRepr x
  | x :: y :: rest => pyRepr x ++ ", " ++ pyReprList (y :: rest)

/-- Comma-separated `repr`s of dict entries. -/
def pyReprPairs : List (String × Json) → String
  | [] => ""
  | [(k, v)] => pyQuote ++ k ++ pyQuote ++ ": " ++ pyRepr v
  | (k, v) :: p :: rest => pyQuote ++ k ++ pyQuote ++ ": " ++ pyRepr v ++ ", " ++ pyReprPairs (p :: rest)

end

/-- Python `str()` of an embedded value. -/
def pyStr : Json → String
  | Json.str s => s
  | j => pyRepr j

/-- Replace every occurrence of the pattern `p :: ps` in a character
list by `repl`, left to right, non-overlapping — Python `str.replace`.
The fuel argument (instantiated to the list length, which bounds the
number of steps) keeps the recursion structural. -/
def replaceAll (p : Char) (ps repl : List Char) : Nat → List Char → List Char
  | 0, l => l
  | _ + 1, [] => []
  | fuel + 1, c :: cs =>
      if charsPref (p :: ps) (c :: cs) then
        repl ++ replaceAll p ps repl fuel (cs.drop ps.length)
      else
        c :: replaceAll p ps repl fuel cs

/-- Python `s.replace(pat, repl)` for a non-empty pattern (the source
only replaces the literal `"disclose:"`). -/
def strReplace (s pat repl : String) : String :=
  match pat.data with
  | [] => s
  | p :: ps => String.mk (replaceAll p ps repl.data s.data.length s.data)

/-- Does `hay` contain `needle` as a contiguous substring? -/
def containsSubstr (hay needle : List Char) : Bool :=
  match hay with
  | [] => needle.isEmpty
  | _ :: rest => charsPref needle hay || containsSubstr rest needle

/-- Python `sub in s` on strings. -/
def pyIn (sub s : String) : Bool :=
  containsSubstr s.data sub.data

/-- `_format_value(key, value)`: percentage rendering for the two rate
keys (via `float(value)`, which may raise), `"{value}/5.0"` for the
review rating, `"{value} days"` for keys containing `days`, and plain
`str(value)` otherwise. -/
def format_value (key : String) (value : Json) : Except String String :=
  if key = "return_rate" then
    match pyFloat value with
    | .error e => .error e
    | .ok q => .ok (ratToFixed (q * 100) 1 ++ "%")
  else if key = "dispute_rate" then
    match pyFloat value with
    | .error e => .error e
    | .ok q => .ok (ratToFixed (q * 100) 2 ++ "%")
  else if key = "review_rating" then
    .ok (pyStr value ++ "/5.0")
  else if pyIn "days" key then
    .ok (pyStr value ++ " days")
  else
    .ok (pyStr value)

/-- The per-signal lines of `DiscloseSignals.summary`: strip the
`disclose:` prefix via `str.replace`, then format the value. -/
def signalLines : List (String × Json) → Except String (List String)
  | [] => .ok []
  | (k, v) :: rest =>
      let short := strReplace k "disclose:" ""
      match format_value short v with
      | .error e => .error e
      | .ok fv =>
          match signalLines rest with
          | .error e => .error e
          | .ok ls => .ok (("  " ++ short ++ ": " ++ fv) :: ls)

/-- The non-error branch of `DiscloseSignals.summary`. -/
def summaryBody (r : DiscloseSignals) : Except String String :=
  let header := "[Disclose signals for " ++ r.merchant_domain ++ "]"
  let verLines :=
    if truthy r.verifier then
      ["  Verified by: " ++ pyStr r.verifier ++ " at " ++
        (if truthy r.verified_at then pyStr r.verified_at else "unknown time")]
    else []
  match signalLines r.signals with
  | .error e => .error e
  | .ok sls =>
      let ls := [header] ++ verLines ++ sls ++
        (if r.signals.isEmpty then ["  No signals published."] else [])
      .ok (String.intercalate "\n" ls)

/-- `DiscloseSignals.summary`: a single error line when `error` is
truthy, otherwise the header, optional verifier attribution, one line
per signal and a fallback line when no signals exist. -/
def summary (r : DiscloseSignals) : Except String String :=
  match r.error with
  | some e => if e = "" then summaryBody r else
      .ok ("[Disclose] Could not retrieve signals for " ++ r.merchant_domain ++ ": " ++ e)
  | none => summaryBody r

/-- All-strings view of a JSON array. -/
def allStrings : List Json → Option (List String)
  | [] => some []
  | Json.str s :: rest => (allStrings rest).map (fun l => s :: l)
  | _ => none

/-- The conversion of `tool_input.get("signals")` to the
`Optional[list[str]]` parameter of `fetch_signals`: absent and `None`
mean no filter, a list of strings is the filter. (Python would pass
other shapes through and duck-type them inside the fetch; those
ill-typed shapes are outside the tool schema and not modelled.) -/
def parseSignalsArg : Option Json → Except String (Option (List String))
  | none => .ok none
  | some Json.null => .ok none
  | some (Json.arr xs) =>
      match allStrings xs with
      | some l => .ok (some l)
      | none => .error "signals argument is not a list of strings (not modelled)"
  | some _ => .error "signals argument is not a list of strings (not modelled)"

/-- `handle_tool_call(tool_name, tool_input)`: any unrecognized tool
name short-circuits to an `Unknown tool:` message before any input
access or fetch; the recognized name reads `merchant_domain` (a
`KeyError` when absent, an `AttributeError` inside the fetch when not a
string), fetches, and renders the summary. -/
def handle_tool_call (tool_name : String) (tool_input : List (String × Json))
    (response : FetchOutcome) : Except String String :=
  if tool_name ≠ "fetch_merchant_trust_signals" then
    .ok ("Unknown tool: " ++ tool_name)
  else
    match dictGet tool_input "merchant_domain" with
    | none => .error "KeyError: merchant_domain"
    | some (Json.str md) =>
        (match parseSignalsArg (dictGet tool_input "signals") with
         | .error e => .error e
         | .ok sigs =>
             match fetch_signals md sigs response with
             | .error e => .error e
             | .ok r => summary r)
    | some _ => .error "AttributeError: merchant_domain is not a string"

/-- Spec-side description of trailing-slash stripping, written as a
right-to-left recursion: remove every `/` at the end of the string. -/
def stripTrailingSlashes : List Char → List Char
  | [] => []
  | c :: cs =>
      match stripTrailingSlashes cs with
      | [] => if c = '/' then [] else [c]
      | r => c :: r

/-- Spec-side prefix removal: `some` of the remainder when the first
argument is a prefix, `none` otherwise. -/
def dropPrefixOpt : List Char → List Char → Option (List Char)
  | [], l => some l
  | _ :: _, [] => none
  | p :: ps, c :: cs => if p = c then dropPrefixOpt ps cs else none

/-- The amended normalization contract, written from the amended claim:
first strip all trailing slashes, then remove an `https://` prefix if
present, then an `http://` prefix if present — each prefix at most once. -/
def normalizeDomainAmended (s : String) : String :=
  let a := stripTrailingSlashes s.data
  let b := (dropPrefixOpt "https://".data a).getD a
  let c := (dropPrefixOpt "http://".data b).getD b
  String.mk c

example : normalizeDomain "https://acme.com/" = "acme.com" := by decide
example : normalizeDomain "acme.com//" = "acme.com" := by decide
example : normalizeDomain "http://acme.com" = "acme.com" := by decide
example : targetUrl "acme.com" = "https://acme.com/.well-known/disclose.json" := by decide

example :
    fetch_signals "acme.com" none (.doc (Json.str "hello")) =
      .error "AttributeError: object has no attribute items" := rfl

example :
    fetch_signals "acme.com" none (.doc (Json.obj [("disclose:verifier", Json.str "v")])) =
      .error "AttributeError: object has no attribute get" := rfl

example :
    fetch_signals "acme.com" none (.doc (Json.obj [("@graph", Json.num 5)])) =
      .error "TypeError: object is not iterable" := rfl

example :
    fetch_signals "acme.com" (some []) (.doc (Json.obj [("disclose:a", Json.num 1)])) =
      .ok ⟨"acme.com", Json.obj [("disclose:a", Json.num 1)], [("disclose:a", Json.num 1)],
           Json.null, Json.null, none⟩ := rfl

example : score [("disclose:review_rating", Json.num 5)] = .ok (some 1) := by
  simp [score, scoreLoop, scoreStep, scoreWeights, dictGet, pyFloat]
  norm_num
  rw [show (7:ℚ)/20 / |(7:ℚ)/20| = 1 from by rw [abs_of_pos] <;> norm_num]
  norm_num [round3, roundHalfUp, show Int.fdiv 2001 2 = 1000 from by decide]

example : score [("disclose:return_rate", Json.num 1)] = .ok (some 0) := by
  simp [score, scoreLoop, scoreStep, scoreWeights, dictGet, pyFloat]
  norm_num [round3, roundHalfUp, show Int.fdiv 1 2 = 0 from by decide]

example : score [] = .ok none := by
  simp [score, scoreLoop, scoreStep, scoreWeights, dictGet]

example : strReplace "disclose:return_rate" "disclose:" "" = "return_rate" := by decide
example : pyIn "days" "fulfillment_days_p50" = true := by decide
example : pyIn "days" "return_rate" = false := by decide

example : format_value "review_rating" (Json.num (9/2)) = .ok "4.5/5.0" := by
  simp [format_value, pyStr, pyRepr, pyNumRepr, decExpSearch, ratToFixed, roundHalfUp, padZeros]
  norm_num
  decide

example : format_value "return_rate" (Json.num (153/1000)) = .ok "15.3%" := by
  simp [format_value, pyFloat, ratToFixed, roundHalfUp, padZeros]
  norm_num
  decide

example : format_value "dispute_rate" (Json.num (169/10000)) = .ok "1.69%" := by
  simp [format_value, pyFloat, ratToFixed, roundHalfUp, padZeros]
  norm_num
  decide

theorem stripTrailingSlashes_append_single (xs : List Char) (c : Char) :
    stripTrailingSlashes (xs ++ [c]) =
      if c = '/' then stripTrailingSlashes xs else xs ++ [c] := by
  induction xs with
  | nil => simp [stripTrailingSlashes]
  | cons x xs ih =>
      simp only [List.cons_append, stripTrailingSlashes, List.append_eq]
      rw [ih]
      by_cases hc : c = '/'
      · simp only [if_pos hc]
      · simp only [if_neg hc]
        cases h : xs ++ [c] with
        | nil => exact absurd h (by simp)
        | cons y ys => rfl

theorem dropWhile_reverse_eq_strip (r : List Char) :
    (r.dropWhile (fun c => c = '/')).reverse = stripTrailingSlashes r.reverse := by
  induction r with
  | nil => simp [stripTrailingSlashes]
  | cons c cs ih =>
      by_cases hc : c = '/'
      · subst hc
        simp only [List.dropWhile_cons, List.reverse_cons]
        rw [stripTrailingSlashes_append_single]
        simp [ih]
      · simp only [List.dropWhile_cons, List.reverse_cons]
        rw [stripTrailingSlashes_append_single, if_neg hc]
        simp [hc]

theorem pyRstripSlash_eq_strip (s : String) :
    pyRstripSlash s = String.mk (stripTrailingSlashes s.data) := by
  unfold pyRstripSlash
  rw [show s.data = s.data.reverse.reverse from (List.reverse_reverse _).symm]
  rw [dropWhile_reverse_eq_strip]
  simp

theorem charsPref_dropPrefixOpt (pre l : List Char) :
    (charsPref pre l = true → dropPrefixOpt pre l = some (l.drop pre.length)) ∧
    (charsPref pre l = false → dropPrefixOpt pre l = none) := by
  induction pre generalizing l with
  | nil => simp [charsPref, dropPrefixOpt]
  | cons p ps ih =>
      cases l with
      | nil => simp [charsPref, dropPrefixOpt]
      | cons c cs =>
          by_cases hpc : p = c
          · simpa [charsPref, dropPrefixOpt, hpc] using ih cs
          · simp [charsPref, dropPrefixOpt, hpc]

theorem removeprefixPy_eq_dropPrefixOpt (s p : String) :
    removeprefixPy s p = String.mk ((dropPrefixOpt p.data s.data).getD s.data) := by
  unfold removeprefixPy pyStartsWith
  cases h : charsPref p.data s.data with
  | true =>
      rw [(charsPref_dropPrefixOpt p.data s.data).1 h]
      simp
  | false =>
      rw [(charsPref_dropPrefixOpt p.data s.data).2 h]
      simp

theorem dictGet_cons (a : String) (b : Json) (rest : List (String × Json)) (k : String) :
    dictGet ((a, b) :: rest) k = if a = k then some b else dictGet rest k := rfl

theorem dictGet_map_set (d : List (String × Json)) (k : String) (v : Json) :
    dictGet (d.map (fun p => if p.1 = k then (k, v) else p)) k =
      if (dictGet d k).isSome then some v else none := by
  induction d with
  | nil => simp [dictGet]
  | cons p rest ih =>
      obtain ⟨a, b⟩ := p
      rw [List.map_cons]
      by_cases ha : a = k
      · rw [show ((if (a, b).1 = k then (k, v) else (a, b))) = (k, v) from by
            rw [if_pos ha]]
        rw [dictGet_cons, if_pos rfl, dictGet_cons, if_pos ha]
        simp
      · rw [show ((if (a, b).1 = k then (k, v) else (a, b))) = (a, b) from by
            rw [if_neg ha]]
        rw [dictGet_cons, if_neg ha, dictGet_cons, if_neg ha, ih]

theorem dictGet_map_set_ne (d : List (String × Json)) (k k' : String) (v : Json)
    (h : k' ≠ k) :
    dictGet (d.map (fun p => if p.1 = k' then (k', v) else p)) k = dictGet d k := by
  induction d with
  | nil => simp [dictGet]
  | cons p rest ih =>
      obtain ⟨a, b⟩ := p
      rw [List.map_cons]
      by_cases ha : a = k'
      · rw [show ((if (a, b).1 = k' then (k', v) else (a, b))) = (k', v) from by
            rw [if_pos ha]]
        have hak : a ≠ k := by rw [ha]; exact h
        rw [dictGet_cons, if_neg h, dictGet_cons, if_neg hak, ih]
      · rw [show ((if (a, b).1 = k' then (k', v) else (a, b))) = (a, b) from by
            rw [if_neg ha]]
        rw [dictGet_cons, dictGet_cons, ih]

theorem dictGet_append_pair (d : List (String × Json)) (k : String) (v : Json) :
    dictGet (d ++ [(k, v)]) k = if (dictGet d k).isSome then dictGet d k else some v := by
  induction d with
  | nil => simp [dictGet]
  | cons p rest ih =>
      obtain ⟨a, b⟩ := p
      rw [List.cons_append, dictGet_cons, dictGet_cons]
      by_cases ha : a = k
      · rw [if_pos ha, if_pos ha]
        simp
      · rw [if_neg ha, if_neg ha, ih]

theorem dictGet_append_pair_ne (d : List (String × Json)) (k k' : String) (v : Json)
    (h : k' ≠ k) :
    dictGet (d ++ [(k', v)]) k = dictGet d k := by
  induction d with
  | nil => simp [dictGet, h]
  | cons p rest ih =>
      obtain ⟨a, b⟩ := p
      rw [List.cons_append, dictGet_cons, dictGet_cons]
      by_cases ha : a = k
      · rw [if_pos ha, if_pos ha]
      · rw [if_neg ha, if_neg ha, ih]

theorem dictGet_dictInsert_self (d : List (String × Json)) (k : String) (v : Json) :
    dictGet (dictInsert d k v) k = some v := by
  unfold dictInsert
  by_cases h : (dictGet d k).isSome
  · simp [h, dictGet_map_set]
  · rw [if_neg h, dictGet_append_pair, if_neg h]

theorem dictGet_dictInsert_ne (d : List (String × Json)) (k k' : String) (v : Json)
    (h : k' ≠ k) :
    dictGet (dictInsert d k' v) k = dictGet d k := by
  unfold dictInsert
  by_cases hs : (dictGet d k').isSome
  · simp [hs, dictGet_map_set_ne d k k' v h]
  · rw [if_neg hs, dictGet_append_pair_ne d k k' v h]

theorem addSignals_append (s : List (String × Json)) (a b : List (String × Json)) :
    addSignals s (a ++ b) = addSignals (addSignals s a) b := by
  induction a generalizing s with
  | nil => simp [addSignals]
  | cons p rest ih =>
      obtain ⟨k, v⟩ := p
      simp only [List.cons_append, addSignals]
      exact ih _

theorem addSignals_notmem (s ps : List (String × Json)) (k : String)
    (h : ∀ v, (k, v) ∉ ps) :
    dictGet (addSignals s ps) k = dictGet s k := by
  induction ps generalizing s with
  | nil => rfl
  | cons p rest ih =>
      obtain ⟨k1, v1⟩ := p
      have hk1 : k1 ≠ k := by
        intro hh
        exact h v1 (by simp [hh])
      have htail : ∀ v, (k, v) ∉ rest := by
        intro v hv
        exact h v (by simp [hv])
      simp only [addSignals]
      rw [ih _ htail]
      by_cases hpre : pyStartsWith k1 "disclose:"
      · rw [if_pos hpre, dictGet_dictInsert_ne s k k1 v1 hk1]
      · rw [if_neg hpre]

theorem addSignals_last (s m1 m2 : List (String × Json)) (k : String) (v2 : Json)
    (hk : pyStartsWith k "disclose:" = true) (hm2 : ∀ v, (k, v) ∉ m2) :
    dictGet (addSignals s (m1 ++ (k, v2) :: m2)) k = some v2 := by
  rw [addSignals_append]
  simp only [addSignals, if_pos hk]
  rw [addSignals_notmem _ _ _ hm2, dictGet_dictInsert_self]

theorem graphFold_append (s : List (String × Json)) (a b : List Json) :
    graphFold s (a ++ b) = graphFold (graphFold s a) b := by
  induction a generalizing s with
  | nil => simp [graphFold]
  | cons n rest ih =>
      simp only [List.cons_append, graphFold]
      exact ih _

theorem graphFold_notmem (s : List (String × Json)) (ns : List Json) (k : String)
    (h : ∀ nps v, Json.obj nps ∈ ns → (k, v) ∉ nps) :
    dictGet (graphFold s ns) k = dictGet s k := by
  induction ns generalizing s with
  | nil => rfl
  | cons n rest ih =>
      have htail : ∀ nps v, Json.obj nps ∈ rest → (k, v) ∉ nps := by
        intro nps v hmem
        exact h nps v (by simp [hmem])
      simp only [graphFold]
      rw [ih _ htail]
      cases n with
      | obj nps =>
          exact addSignals_notmem s nps k (fun v => h nps v (by simp))
      | null => rfl
      | bool b => rfl
      | num q => rfl
      | str s1 => rfl
      | arr xs => rfl

/-- C2 (counterexample): the claim that normalization strips the
trailing slash exactly once fails on a domain with two trailing
slashes — `rstrip("/")` removes them all, so the result is
`"acme.com"`, not the `"acme.com/"` that exactly-once stripping would
produce. -/
theorem normalizeDomain_trailing_slashes_cex :
    normalizeDomain "acme.com//" = "acme.com" ∧
    normalizeDomain "acme.com//" ≠ "acme.com/" := by
  exact ⟨by decide, by decide⟩

/-- C2 (amended): the normalized domain used in the constructed URL
strips all trailing slashes (not just one), then removes an
`https://` prefix if present and an `http://` prefix if present, each
at most once, in that order. -/
theorem normalizeDomain_amended_spec (s : String) :
    normalizeDomain s = normalizeDomainAmended s ∧
    targetUrl s = "https://" ++ normalizeDomainAmended s ++ "/.well-known/disclose.json" := by
  have h : normalizeDomain s = normalizeDomainAmended s := by
    simp [normalizeDomain, normalizeDomainAmended, pyRstripSlash_eq_strip,
      removeprefixPy_eq_dropPrefixOpt]
  exact ⟨h, by rw [targetUrl, WELL_KNOWN_PATH, h]⟩

theorem addSignals_isSome_mono (s ps : List (String × Json)) (k : String)
    (h : (dictGet s k).isSome) : (dictGet (addSignals s ps) k).isSome := by
  induction ps generalizing s with
  | nil => exact h
  | cons p rest ih =>
      obtain ⟨k1, v1⟩ := p
      simp only [addSignals]
      apply ih
      by_cases hpre : pyStartsWith k1 "disclose:"
      · rw [if_pos hpre]
        by_cases hk : k1 = k
        · subst hk
          rw [dictGet_dictInsert_self]
          rfl
        · rw [dictGet_dictInsert_ne s k k1 v1 hk]
          exact h
      · rw [if_neg hpre]
        exact h

theorem addSignals_mem_isSome (s ps : List (String × Json)) (k : String) (v : Json)
    (hmem : (k, v) ∈ ps) (hk : pyStartsWith k "disclose:" = true) :
    (dictGet (addSignals s ps) k).isSome := by
  induction ps generalizing s with
  | nil => simp at hmem
  | cons p rest ih =>
      obtain ⟨k1, v1⟩ := p
      simp only [addSignals]
      rcases List.mem_cons.mp hmem with heq | htail
      · obtain ⟨rfl, rfl⟩ := Prod.mk.injEq .. ▸ heq
        rw [if_pos hk]
        exact addSignals_isSome_mono _ rest k (by rw [dictGet_dictInsert_self]; rfl)
      · exact ih _ htail

theorem graphFold_isSome_mono (s : List (String × Json)) (ns : List Json) (k : String)
    (h : (dictGet s k).isSome) : (dictGet (graphFold s ns) k).isSome := by
  induction ns generalizing s with
  | nil => exact h
  | cons n rest ih =>
      simp only [graphFold]
      apply ih
      cases n with
      | obj nps => exact addSignals_isSome_mono s nps k h
      | null => exact h
      | bool b => exact h
      | num q => exact h
      | str s1 => exact h
      | arr xs => exact h

theorem graphFold_mem_isSome (s : List (String × Json)) (ns : List Json)
    (nps : List (String × Json)) (k : String) (v : Json)
    (hn : Json.obj nps ∈ ns) (hmem : (k, v) ∈ nps)
    (hk : pyStartsWith k "disclose:" = true) :
    (dictGet (graphFold s ns) k).isSome := by
  induction ns generalizing s with
  | nil => simp at hn
  | cons n rest ih =>
      simp only [graphFold]
      rcases List.mem_cons.mp hn with heq | htail
      · subst heq
        exact graphFold_isSome_mono _ rest k (addSignals_mem_isSome s nps k v hmem hk)
      · exact ih _ htail

theorem addSignals_nonprefixed (s ps : List (String × Json)) (k : String)
    (hk : pyStartsWith k "disclose:" = false) :
    dictGet (addSignals s ps) k = dictGet s k := by
  induction ps generalizing s with
  | nil => rfl
  | cons p rest ih =>
      obtain ⟨k1, v1⟩ := p
      simp only [addSignals]
      rw [ih]
      by_cases hpre : pyStartsWith k1 "disclose:"
      · rw [if_pos hpre]
        have hne : k1 ≠ k := by
          intro hh
          subst hh
          rw [hpre] at hk
          exact Bool.true_eq_false.mp hk
        rw [dictGet_dictInsert_ne s k k1 v1 hne]
      · rw [if_neg hpre]

theorem graphFold_nonprefixed (s : List (String × Json)) (ns : List Json) (k : String)
    (hk : pyStartsWith k "disclose:" = false) :
    dictGet (graphFold s ns) k = dictGet s k := by
  induction ns generalizing s with
  | nil => rfl
  | cons n rest ih =>
      simp only [graphFold]
      rw [ih]
      cases n with
      | obj nps => exact addSignals_nonprefixed s nps k hk
      | null => rfl
      | bool b => rfl
      | num q => rfl
      | str s1 => rfl
      | arr xs => rfl

/-- C3: extraction collects every root-level `disclose:`-prefixed key
and every `disclose:`-prefixed key of the object nodes of an
array-valued `@graph` field, merged into one mapping holding only
such keys; iteration order is root-then-graph with last-write-wins, so
when a key occurs at the root and (last) inside a `@graph` object
node, the graph node's value is the one in the result. -/
theorem extract_graph_wins
    (pairs m1 m2 : List (String × Json)) (ns1 ns2 : List Json)
    (k : String) (v1 v2 : Json)
    (hk : pyStartsWith k "disclose:" = true)
    (hgraph : dictGet pairs "@graph" =
      some (Json.arr (ns1 ++ Json.obj (m1 ++ (k, v2) :: m2) :: ns2)))
    (hroot : dictGet pairs k = some v1)
    (hm2 : ∀ v, (k, v) ∉ m2)
    (hns2 : ∀ nps v, Json.obj nps ∈ ns2 → (k, v) ∉ nps) :
    ∃ sig, extract_signals (Json.obj pairs) = .ok sig ∧
      dictGet sig k = some v2 ∧
      (∀ k1 v, (k1, v) ∈ pairs → pyStartsWith k1 "disclose:" = true →
         (dictGet sig k1).isSome) ∧
      (∀ nps k1 v, Json.obj nps ∈ ns1 ++ Json.obj (m1 ++ (k, v2) :: m2) :: ns2 →
         (k1, v) ∈ nps → pyStartsWith k1 "disclose:" = true → (dictGet sig k1).isSome) ∧
      (∀ k1, (dictGet sig k1).isSome → pyStartsWith k1 "disclose:" = true) := by
  refine ⟨graphFold (addSignals [] pairs) (ns1 ++ Json.obj (m1 ++ (k, v2) :: m2) :: ns2),
    ?_, ?_, ?_, ?_, ?_⟩
  · simp [extract_signals, extractFromObj, hgraph, iterNodes]
  · rw [show ns1 ++ Json.obj (m1 ++ (k, v2) :: m2) :: ns2
        = (ns1 ++ [Json.obj (m1 ++ (k, v2) :: m2)]) ++ ns2 from by simp]
    rw [graphFold_append, graphFold_append]
    rw [graphFold_notmem _ _ _ hns2]
    rw [show graphFold (graphFold (addSignals [] pairs) ns1) [Json.obj (m1 ++ (k, v2) :: m2)]
        = addSignals (graphFold (addSignals [] pairs) ns1) (m1 ++ (k, v2) :: m2) from rfl]
    exact addSignals_last _ _ _ _ _ hk hm2
  · intro k1 v hmem hk1
    exact graphFold_isSome_mono _ _ _ (addSignals_mem_isSome [] pairs k1 v hmem hk1)
  · intro nps k1 v hn hmem hk1
    exact graphFold_mem_isSome _ _ nps k1 v hn hmem hk1
  · intro k1 hs
    by_cases hp : pyStartsWith k1 "disclose:"
    · exact hp
    · exfalso
      have hp' : pyStartsWith k1 "disclose:" = false := by simpa using hp
      rw [graphFold_nonprefixed _ _ _ hp', addSignals_nonprefixed _ _ _ hp'] at hs
      simp [dictGet] at hs

/-- C3 (witness): on the concrete document
`\x7b"disclose:a": 1, "@graph": [\x7b"disclose:a": 2\x7d]\x7d` the extracted
mapping holds the graph value `2` for `disclose:a`, holds every
prefixed key, and holds only prefixed keys. -/
theorem extract_graph_wins_witness :
    ∃ sig, extract_signals (Json.obj [("disclose:a", Json.num 1),
        ("@graph", Json.arr [Json.obj [("disclose:a", Json.num 2)]])]) = .ok sig ∧
      dictGet sig "disclose:a" = some (Json.num 2) ∧
      (∀ k1 v, (k1, v) ∈ [("disclose:a", Json.num 1),
          ("@graph", Json.arr [Json.obj [("disclose:a", Json.num 2)]])] →
         pyStartsWith k1 "disclose:" = true → (dictGet sig k1).isSome) ∧
      (∀ nps k1 v, Json.obj nps ∈ [Json.obj [("disclose:a", Json.num 2)]] →
         (k1, v) ∈ nps → pyStartsWith k1 "disclose:" = true → (dictGet sig k1).isSome) ∧
      (∀ k1, (dictGet sig k1).isSome → pyStartsWith k1 "disclose:" = true) :=
  extract_graph_wins [("disclose:a", Json.num 1),
      ("@graph", Json.arr [Json.obj [("disclose:a", Json.num 2)]])]
    [] [] [] [] "disclose:a" (Json.num 1) (Json.num 2)
    rfl rfl rfl (by simp) (by simp)

/-- C5: for a signal mapping whose scored keys hold numbers with at
least one of them present, `score` is the weighted average of the
claim: per-key normalize by max value, invert the lower-is-better
keys, divide the contribution sum by the `abs(weight)` sum and round
to three decimals. -/
theorem score_weighted_average (signals : List (String × Json))
    (hnum : ∀ k v, k ∈ scoredKeys → dictGet signals k = some v → ∃ q, v = Json.num q)
    (hone : ∃ k, k ∈ scoredKeys ∧ (dictGet signals k).isSome) :
    score signals = .ok (some (round3 (specContribution signals / specWeight signals))) ∧
    score [("disclose:review_rating", Json.num 5)] = .ok (some 1) ∧
    score [("disclose:return_rate", Json.num 1)] = .ok (some 0) := by
  refine ⟨?_, ?_, ?_⟩
  · cases h1 : dictGet signals "disclose:review_rating" with
    | some v1 =>
        obtain ⟨q1, rfl⟩ := hnum _ v1 (by simp [scoredKeys]) h1
        cases h2 : dictGet signals "disclose:return_rate" with
        | some v2 =>
            obtain ⟨q2, rfl⟩ := hnum _ v2 (by simp [scoredKeys]) h2
            cases h3 : dictGet signals "disclose:dispute_rate" with
            | some v3 =>
                obtain ⟨q3, rfl⟩ := hnum _ v3 (by simp [scoredKeys]) h3
                cases h4 : dictGet signals "disclose:fulfillment_days_p50" with
                | some v4 =>
                    obtain ⟨q4, rfl⟩ := hnum _ v4 (by simp [scoredKeys]) h4
                    have ha1 : |(7:ℚ)/20| = 7/20 := abs_of_pos (by norm_num)
                    have ha2 : |(1:ℚ)/4| = 1/4 := abs_of_pos (by norm_num)
                    have ha3 : |(1:ℚ)/5| = 1/5 := abs_of_pos (by norm_num)
                    simp only [score, scoreLoop, scoreStep, scoreWeights, pyFloat,
                      specContribution, specWeight, specTermNum, h1, h2, h3, h4]
                    norm_num [ha1, ha2, ha3]
                | none =>
                    have ha1 : |(7:ℚ)/20| = 7/20 := abs_of_pos (by norm_num)
                    have ha2 : |(1:ℚ)/4| = 1/4 := abs_of_pos (by norm_num)
                    have ha3 : |(1:ℚ)/5| = 1/5 := abs_of_pos (by norm_num)
                    simp only [score, scoreLoop, scoreStep, scoreWeights, pyFloat,
                      specContribution, specWeight, specTermNum, h1, h2, h3, h4]
                    norm_num [ha1, ha2, ha3]
            | none =>
                cases h4 : dictGet signals "disclose:fulfillment_days_p50" with
                | some v4 =>
                    obtain ⟨q4, rfl⟩ := hnum _ v4 (by simp [scoredKeys]) h4
                    have ha1 : |(7:ℚ)/20| = 7/20 := abs_of_pos (by norm_num)
                    have ha2 : |(1:ℚ)/4| = 1/4 := abs_of_pos (by norm_num)
                    have ha3 : |(1:ℚ)/5| = 1/5 := abs_of_pos (by norm_num)
                    simp only [score, scoreLoop, scoreStep, scoreWeights, pyFloat,
                      specContribution, specWeight, specTermNum, h1, h2, h3, h4]
                    norm_num [ha1, ha2, ha3]
                | none =>
                    have ha1 : |(7:ℚ)/20| = 7/20 := abs_of_pos (by norm_num)
                    have ha2 : |(1:ℚ)/4| = 1/4 := abs_of_pos (by norm_num)
                    have ha3 : |(1:ℚ)/5| = 1/5 := abs_of_pos (by norm_num)
                    simp only [score, scoreLoop, scoreStep, scoreWeights, pyFloat,
                      specContribution, specWeight, specTermNum, h1, h2, h3, h4]
                    norm_num [ha1, ha2, ha3]
        | none =>
            cases h3 : dictGet signals "disclose:dispute_rate" with
            | some v3 =>
                obtain ⟨q3, rfl⟩ := hnum _ v3 (by simp [scoredKeys]) h3
                cases h4 : dictGet signals "disclose:fulfillment_days_p50" with
                | some v4 =>
                    obtain ⟨q4, rfl⟩ := hnum _ v4 (by simp [scoredKeys]) h4
                    have ha1 : |(7:ℚ)/20| = 7/20 := abs_of_pos (by norm_num)
                    have ha2 : |(1:ℚ)/4| = 1/4 := abs_of_pos (by norm_num)
                    have ha3 : |(1:ℚ)/5| = 1/5 := abs_of_pos (by norm_num)
                    simp only [score, scoreLoop, scoreStep, scoreWeights, pyFloat,
                      specContribution, specWeight, specTermNum, h1, h2, h3, h4]
                    norm_num [ha1, ha2, ha3]
                | none =>
                    have ha1 : |(7:ℚ)/20| = 7/20 := abs_of_pos (by norm_num)
                    have ha2 : |(1:ℚ)/4| = 1/4 := abs_of_pos (by norm_num)
                    have ha3 : |(1:ℚ)/5| = 1/5 := abs_of_pos (by norm_num)
                    simp only [score, scoreLoop, scoreStep, scoreWeights, pyFloat,
                      specContribution, specWeight, specTermNum, h1, h2, h3, h4]
                    norm_num [ha1, ha2, ha3]
            | none =>
                cases h4 : dictGet signals "disclose:fulfillment_days_p50" with
                | some v4 =>
                    obtain ⟨q4, rfl⟩ := hnum _ v4 (by simp [scoredKeys]) h4
                    have ha1 : |(7:ℚ)/20| = 7/20 := abs_of_pos (by norm_num)
                    have ha2 : |(1:ℚ)/4| = 1/4 := abs_of_pos (by norm_num)
                    have ha3 : |(1:ℚ)/5| = 1/5 := abs_of_pos (by norm_num)
                    simp only [score, scoreLoop, scoreStep, scoreWeights, pyFloat,
                      specContribution, specWeight, specTermNum, h1, h2, h3, h4]
                    norm_num [ha1, ha2, ha3]
                | none =>
                    have ha1 : |(7:ℚ)/20| = 7/20 := abs_of_pos (by norm_num)
                    have ha2 : |(1:ℚ)/4| = 1/4 := abs_of_pos (by norm_num)
                    have ha3 : |(1:ℚ)/5| = 1/5 := abs_of_pos (by norm_num)
                    simp only [score, scoreLoop, scoreStep, scoreWeights, pyFloat,
                      specContribution, specWeight, specTermNum, h1, h2, h3, h4]
                    norm_num [ha1, ha2, ha3]
    | none =>
        cases h2 : dictGet signals "disclose:return_rate" with
        | some v2 =>
            obtain ⟨q2, rfl⟩ := hnum _ v2 (by simp [scoredKeys]) h2
            cases h3 : dictGet signals "disclose:dispute_rate" with
            | some v3 =>
                obtain ⟨q3, rfl⟩ := hnum _ v3 (by simp [scoredKeys]) h3
                cases h4 : dictGet signals "disclose:fulfillment_days_p50" with
                | some v4 =>
                    obtain ⟨q4, rfl⟩ := hnum _ v4 (by simp [scoredKeys]) h4
                    have ha1 : |(7:ℚ)/20| = 7/20 := abs_of_pos (by norm_num)
                    have ha2 : |(1:ℚ)/4| = 1/4 := abs_of_pos (by norm_num)
                    have ha3 : |(1:ℚ)/5| = 1/5 := abs_of_pos (by norm_num)
                    simp only [score, scoreLoop, scoreStep, scoreWeights, pyFloat,
                      specContribution, specWeight, specTermNum, h1, h2, h3, h4]
                    norm_num [ha1, ha2, ha3]
                | none =>
                    have ha1 : |(7:ℚ)/20| = 7/20 := abs_of_pos (by norm_num)
                    have ha2 : |(1:ℚ)/4| = 1/4 := abs_of_pos (by norm_num)
                    have ha3 : |(1:ℚ)/5| = 1/5 := abs_of_pos (by norm_num)
                    simp only [score, scoreLoop, scoreStep, scoreWeights, pyFloat,
                      specContribution, specWeight, specTermNum, h1, h2, h3, h4]
                    norm_num [ha1, ha2, ha3]
            | none =>
                cases h4 : dictGet signals "disclose:fulfillment_days_p50" with
                | some v4 =>
                    obtain ⟨q4, rfl⟩ := hnum _ v4 (by simp [scoredKeys]) h4
                    have ha1 : |(7:ℚ)/20| = 7/20 := abs_of_pos (by norm_num)
                    have ha2 : |(1:ℚ)/4| = 1/4 := abs_of_pos (by norm_num)
                    have ha3 : |(1:ℚ)/5| = 1/5 := abs_of_pos (by norm_num)
                    simp only [score, scoreLoop, scoreStep, scoreWeights, pyFloat,
                      specContribution, specWeight, specTermNum, h1, h2, h3, h4]
                    norm_num [ha1, ha2, ha3]
                | none =>
                    have ha1 : |(7:ℚ)/20| = 7/20 := abs_of_pos (by norm_num)
                    have ha2 : |(1:ℚ)/4| = 1/4 := abs_of_pos (by norm_num)
                    have ha3 : |(1:ℚ)/5| = 1/5 := abs_of_pos (by norm_num)
                    simp only [score, scoreLoop, scoreStep, scoreWeights, pyFloat,
                      specContribution, specWeight, specTermNum, h1, h2, h3, h4]
                    norm_num [ha1, ha2, ha3]
        | none =>
            cases h3 : dictGet signals "disclose:dispute_rate" with
            | some v3 =>
                obtain ⟨q3, rfl⟩ := hnum _ v3 (by simp [scoredKeys]) h3
                cases h4 : dictGet signals "disclose:fulfillment_days_p50" with
                | some v4 =>
                    obtain ⟨q4, rfl⟩ := hnum _ v4 (by simp [scoredKeys]) h4
                    have ha1 : |(7:ℚ)/20| = 7/20 := abs_of_pos (by norm_num)
                    have ha2 : |(1:ℚ)/4| = 1/4 := abs_of_pos (by norm_num)
                    have ha3 : |(1:ℚ)/5| = 1/5 := abs_of_pos (by norm_num)
                    simp only [score, scoreLoop, scoreStep, scoreWeights, pyFloat,
                      specContribution, specWeight, specTermNum, h1, h2, h3, h4]
                    norm_num [ha1, ha2, ha3]
                | none =>
                    have ha1 : |(7:ℚ)/20| = 7/20 := abs_of_pos (by norm_num)
                    have ha2 : |(1:ℚ)/4| = 1/4 := abs_of_pos (by norm_num)
                    have ha3 : |(1:ℚ)/5| = 1/5 := abs_of_pos (by norm_num)
                    simp only [score, scoreLoop, scoreStep, scoreWeights, pyFloat,
                      specContribution, specWeight, specTermNum, h1, h2, h3, h4]
                    norm_num [ha1, ha2, ha3]
            | none =>
                cases h4 : dictGet signals "disclose:fulfillment_days_p50" with
                | some v4 =>
                    obtain ⟨q4, rfl⟩ := hnum _ v4 (by simp [scoredKeys]) h4
                    have ha1 : |(7:ℚ)/20| = 7/20 := abs_of_pos (by norm_num)
                    have ha2 : |(1:ℚ)/4| = 1/4 := abs_of_pos (by norm_num)
                    have ha3 : |(1:ℚ)/5| = 1/5 := abs_of_pos (by norm_num)
                    simp only [score, scoreLoop, scoreStep, scoreWeights, pyFloat,
                      specContribution, specWeight, specTermNum, h1, h2, h3, h4]
                    norm_num [ha1, ha2, ha3]
                | none =>
                    exfalso
                    obtain ⟨k, hk, hs⟩ := hone
                    simp [scoredKeys] at hk
                    rcases hk with rfl | rfl | rfl | rfl <;>
                      simp [h1, h2, h3, h4] at hs
  · simp [score, scoreLoop, scoreStep, scoreWeights, dictGet, pyFloat]
    norm_num
    rw [show (7:ℚ)/20 / |(7:ℚ)/20| = 1 from by rw [abs_of_pos] <;> norm_num]
    norm_num [round3, roundHalfUp, show Int.fdiv 2001 2 = 1000 from by decide]
  · simp [score, scoreLoop, scoreStep, scoreWeights, dictGet, pyFloat]
    norm_num [round3, roundHalfUp, show Int.fdiv 1 2 = 0 from by decide]

/-- C5 (witness): the weighted-average formula instantiated on a
mapping holding all four scored keys. -/
theorem score_weighted_average_witness :
    (score [("disclose:review_rating", Json.num 4), ("disclose:return_rate", Json.num 1),
        ("disclose:dispute_rate", Json.num 0), ("disclose:fulfillment_days_p50", Json.num 3)] =
      .ok (some (round3 (specContribution [("disclose:review_rating", Json.num 4),
          ("disclose:return_rate", Json.num 1), ("disclose:dispute_rate", Json.num 0),
          ("disclose:fulfillment_days_p50", Json.num 3)] /
        specWeight [("disclose:review_rating", Json.num 4),
          ("disclose:return_rate", Json.num 1), ("disclose:dispute_rate", Json.num 0),
          ("disclose:fulfillment_days_p50", Json.num 3)])))) ∧
    score [("disclose:review_rating", Json.num 5)] = .ok (some 1) ∧
    score [("disclose:return_rate", Json.num 1)] = .ok (some 0) := by
  refine score_weighted_average _ ?_ ?_
  · intro k v hk hv
    rcases (by simpa [scoredKeys] using hk : k = "disclose:review_rating" ∨
        k = "disclose:return_rate" ∨ k = "disclose:dispute_rate" ∨
        k = "disclose:fulfillment_days_p50") with rfl | rfl | rfl | rfl <;>
      simp [dictGet] at hv <;> exact ⟨_, hv.symm⟩
  · exact ⟨"disclose:review_rating", by simp [scoredKeys], by simp [dictGet]⟩

/-- C6: a signal mapping holding none of the four scored keys (the
empty mapping of every failed fetch in particular) scores to the
explicit insufficient-data outcome `none`, never to the number zero. -/
theorem score_insufficient_data (signals : List (String × Json))
    (h : ∀ k, k ∈ scoredKeys → dictGet signals k = none) :
    score signals = .ok none ∧ score signals ≠ .ok (some 0) := by
  have h1 := h "disclose:review_rating" (by simp [scoredKeys])
  have h2 := h "disclose:return_rate" (by simp [scoredKeys])
  have h3 := h "disclose:dispute_rate" (by simp [scoredKeys])
  have h4 := h "disclose:fulfillment_days_p50" (by simp [scoredKeys])
  have hs : score signals = .ok none := by
    simp only [score, scoreLoop, scoreStep, scoreWeights, h1, h2, h3, h4]
    norm_num
  exact ⟨hs, by rw [hs]; simp⟩

/-- C6 (witness): the empty mapping scores to insufficient data. -/
theorem score_insufficient_data_witness :
    score [] = .ok none ∧ score [] ≠ .ok (some 0) :=
  score_insufficient_data [] (by intro k _; simp [dictGet])

/-- C7: in every `DiscloseSignals` value the fetch returns normally,
`error` and a non-trivial `signals` mapping are mutually exclusive: a
populated `error` comes with an empty mapping, and a non-empty mapping
comes with an absent `error`. -/
theorem error_signals_exclusive (md : String) (sigs : Option (List String))
    (resp : FetchOutcome) (r : DiscloseSignals)
    (h : fetch_signals md sigs resp = .ok r) :
    (r.error.isSome → r.signals = []) ∧ (r.signals ≠ [] → r.error = none) := by
  cases resp with
  | httpError code =>
      simp only [fetch_signals, Except.ok.injEq] at h
      subst h
      simp
  | urlError reason =>
      simp only [fetch_signals, Except.ok.injEq] at h
      subst h
      simp
  | jsonError =>
      simp only [fetch_signals, Except.ok.injEq] at h
      subst h
      simp
  | otherError msg =>
      simp only [fetch_signals, Except.ok.injEq] at h
      subst h
      simp
  | doc raw =>
      cases raw with
      | obj pairs =>
          simp only [fetch_signals] at h
          cases hE : extractFromObj pairs with
          | error e => rw [hE] at h; simp at h
          | ok allS =>
              rw [hE] at h
              cases hV : computeVerifier pairs with
              | error e => rw [hV] at h; simp at h
              | ok v =>
                  rw [hV] at h
                  simp only [Except.ok.injEq] at h
                  subst h
                  simp
      | null => simp [fetch_signals] at h
      | bool b => simp [fetch_signals] at h
      | num q => simp [fetch_signals] at h
      | str s => simp [fetch_signals] at h
      | arr xs => simp [fetch_signals] at h

/-- C7 (witness): the exclusivity instantiated on the result of a
fetch that hit an HTTP 404. -/
theorem error_signals_exclusive_witness :
    ((DiscloseSignals.mk "acme.com" (Json.obj []) [] Json.null Json.null
        (some "HTTP 404: merchant may not support Disclose Framework")).error.isSome →
      (DiscloseSignals.mk "acme.com" (Json.obj []) [] Json.null Json.null
        (some "HTTP 404: merchant may not support Disclose Framework")).signals = []) ∧
    ((DiscloseSignals.mk "acme.com" (Json.obj []) [] Json.null Json.null
        (some "HTTP 404: merchant may not support Disclose Framework")).signals ≠ [] →
      (DiscloseSignals.mk "acme.com" (Json.obj []) [] Json.null Json.null
        (some "HTTP 404: merchant may not support Disclose Framework")).error = none) :=
  error_signals_exclusive "acme.com" none (.httpError 404)
    (DiscloseSignals.mk "acme.com" (Json.obj []) [] Json.null Json.null
      (some "HTTP 404: merchant may not support Disclose Framework")) rfl

/-- C9: an empty `signals` filter is treated exactly like no filter at
all — Python truthiness makes the empty list skip the filtering
comprehension, so the whole fetch result coincides. -/
theorem empty_filter_means_no_filter (md : String) (resp : FetchOutcome) :
    fetch_signals md (some []) resp = fetch_signals md none resp := by
  cases resp with
  | httpError code => rfl
  | urlError reason => rfl
  | jsonError => rfl
  | otherError msg => rfl
  | doc raw =>
      cases raw with
      | obj pairs =>
          simp only [fetch_signals]
          cases hE : extractFromObj pairs with
          | error e => rfl
          | ok allS =>
              cases hV : computeVerifier pairs with
              | error e => rfl
              | ok v => rfl
      | null => rfl
      | bool b => rfl
      | num q => rfl
      | str s => rfl
      | arr xs => rfl

/-- C1 (code bug evidence): the fetch raises instead of returning a
result value when the endpoint document is a non-object (`items()` on
a string), carries a non-object `disclose:verifier` (`.get` on a
string), or a non-iterable `@graph` (iterating a number) — the
extraction and verifier expressions run outside the `try` block of the
source, so these exceptions escape to the caller. -/
theorem fetch_raises_on_malformed_document :
    fetch_signals "acme.com" none (.doc (Json.str "hello")) =
      .error "AttributeError: object has no attribute items" ∧
    fetch_signals "acme.com" none (.doc (Json.obj [("disclose:verifier", Json.str "v")])) =
      .error "AttributeError: object has no attribute get" ∧
    fetch_signals "acme.com" none (.doc (Json.obj [("@graph", Json.num 5)])) =
      .error "TypeError: object is not iterable" :=
  ⟨rfl, rfl, rfl⟩

/-- C4 (counterexample): with the empty requested-key collection the
returned mapping is NOT a subset of the requested set — the empty list
is falsy in Python, so filtering is skipped and every extracted signal
is returned. -/
theorem fetch_empty_filter_cex :
    (fetch_signals "acme.com" (some []) (.doc (Json.obj [("disclose:a", Json.num 1)]))).map
        (fun r => r.signals) = .ok [("disclose:a", Json.num 1)] ∧
    "disclose:a" ∉ ([] : List String) :=
  ⟨rfl, by simp⟩

/-- C4 (amended): for every NON-EMPTY requested-key collection the
returned mapping is a subset of both the extracted mapping and the
requested set, and the requested keys never influence the error
outcome (requesting unknown keys cannot produce an error; they are
silently absent). The empty collection instead disables filtering. -/
theorem fetch_filter_subset (md : String) (l : List String) (resp : FetchOutcome)
    (r : DiscloseSignals)
    (hl : l ≠ []) (h : fetch_signals md (some l) resp = .ok r) :
    (∀ k v, (k, v) ∈ r.signals → k ∈ l) ∧
    (∀ raw E, resp = .doc raw → extract_signals raw = .ok E →
       ∀ k v, (k, v) ∈ r.signals → (k, v) ∈ E) ∧
    (∀ r', fetch_signals md none resp = .ok r' → r.error = r'.error) := by
  cases resp with
  | httpError code =>
      simp only [fetch_signals, Except.ok.injEq] at h
      subst h
      refine ⟨by simp, by simp, ?_⟩
      intro r' h'
      simp only [fetch_signals, Except.ok.injEq] at h'
      subst h'
      rfl
  | urlError reason =>
      simp only [fetch_signals, Except.ok.injEq] at h
      subst h
      refine ⟨by simp, by simp, ?_⟩
      intro r' h'
      simp only [fetch_signals, Except.ok.injEq] at h'
      subst h'
      rfl
  | jsonError =>
      simp only [fetch_signals, Except.ok.injEq] at h
      subst h
      refine ⟨by simp, by simp, ?_⟩
      intro r' h'
      simp only [fetch_signals, Except.ok.injEq] at h'
      subst h'
      rfl
  | otherError msg =>
      simp only [fetch_signals, Except.ok.injEq] at h
      subst h
      refine ⟨by simp, by simp, ?_⟩
      intro r' h'
      simp only [fetch_signals, Except.ok.injEq] at h'
      subst h'
      rfl
  | doc raw =>
      cases raw with
      | obj pairs =>
          simp only [fetch_signals] at h
          cases hE : extractFromObj pairs with
          | error e => rw [hE] at h; simp at h
          | ok allS =>
              rw [hE] at h
              cases hV : computeVerifier pairs with
              | error e => rw [hV] at h; simp at h
              | ok v =>
                  rw [hV] at h
                  simp only [Except.ok.injEq] at h
                  subst h
                  have hfil : applyFilter (some l) allS =
                      allS.filter (fun kv => decide (kv.1 ∈ l)) := by
                    simp only [applyFilter]
                    rw [if_neg (by simpa using hl)]
                  refine ⟨?_, ?_, ?_⟩
                  · intro k v1 hmem
                    rw [hfil] at hmem
                    simpa using (List.mem_filter.mp hmem).2
                  · intro raw E hraw hext k v1 hmem
                    have hpairs : Json.obj pairs = raw := by
                      injection hraw
                    subst hpairs
                    simp only [extract_signals, hE, Except.ok.injEq] at hext
                    subst hext
                    rw [hfil] at hmem
                    exact (List.mem_filter.mp hmem).1
                  · intro r' h'
                    simp only [fetch_signals, hE, hV, Except.ok.injEq] at h'
                    subst h'
                    rfl
      | null => simp [fetch_signals] at h
      | bool b => simp [fetch_signals] at h
      | num q => simp [fetch_signals] at h
      | str s => simp [fetch_signals] at h
      | arr xs => simp [fetch_signals] at h

/-- C4 (witness): the subset property instantiated on a fetch of
`\x7b"disclose:a": 1\x7d` filtered to the single key `disclose:a`. -/
theorem fetch_filter_subset_witness :
    (∀ k v, (k, v) ∈ (DiscloseSignals.mk "acme.com" (Json.obj [("disclose:a", Json.num 1)])
        [("disclose:a", Json.num 1)] Json.null Json.null none).signals → k ∈ ["disclose:a"]) ∧
    (∀ raw E, (FetchOutcome.doc (Json.obj [("disclose:a", Json.num 1)]) : FetchOutcome) =
        .doc raw → extract_signals raw = .ok E →
       ∀ k v, (k, v) ∈ (DiscloseSignals.mk "acme.com" (Json.obj [("disclose:a", Json.num 1)])
          [("disclose:a", Json.num 1)] Json.null Json.null none).signals → (k, v) ∈ E) ∧
    (∀ r', fetch_signals "acme.com" none (.doc (Json.obj [("disclose:a", Json.num 1)])) = .ok r' →
       (DiscloseSignals.mk "acme.com" (Json.obj [("disclose:a", Json.num 1)])
          [("disclose:a", Json.num 1)] Json.null Json.null none).error = r'.error) :=
  fetch_filter_subset "acme.com" ["disclose:a"]
    (.doc (Json.obj [("disclose:a", Json.num 1)]))
    (DiscloseSignals.mk "acme.com" (Json.obj [("disclose:a", Json.num 1)])
      [("disclose:a", Json.num 1)] Json.null Json.null none)
    (by simp) rfl

/-- C8: value formatting renders `review_rating = 4.5` as exactly
`4.5/5.0`, `return_rate = 0.153` as exactly `15.3%` (value times 100,
one decimal place), and `dispute_rate = 0.0169` as exactly `1.69%`
(value times 100, two decimal places). -/
theorem format_value_round_trip :
    format_value "review_rating" (Json.num (9/2)) = .ok "4.5/5.0" ∧
    format_value "return_rate" (Json.num (153/1000)) = .ok "15.3%" ∧
    format_value "dispute_rate" (Json.num (169/10000)) = .ok "1.69%" := by
  refine ⟨?_, ?_, ?_⟩
  · simp [format_value, pyStr, pyRepr, pyNumRepr, decExpSearch, ratToFixed, roundHalfUp, padZeros]
    norm_num
    decide
  · simp [format_value, pyFloat, ratToFixed, roundHalfUp, padZeros]
    norm_num
    decide
  · simp [format_value, pyFloat, ratToFixed, roundHalfUp, padZeros]
    norm_num
    decide

/-- C10: the tool-call handler answers every unrecognized tool name
with `Unknown tool: <name>` without fetching or raising, and answers
the recognized name with exactly the summary rendering of the fetch
result. -/
theorem handle_tool_call_contract :
    (∀ name input resp, name ≠ "fetch_merchant_trust_signals" →
       handle_tool_call name input resp = .ok ("Unknown tool: " ++ name)) ∧
    (∀ input resp md sigs r s,
       dictGet input "merchant_domain" = some (Json.str md) →
       parseSignalsArg (dictGet input "signals") = .ok sigs →
       fetch_signals md sigs resp = .ok r →
       summary r = .ok s →
       handle_tool_call "fetch_merchant_trust_signals" input resp = .ok s) := by
  constructor
  · intro name input resp hname
    simp [handle_tool_call, hname]
  · intro input resp md sigs r s hmd hsig hfetch hsum
    simp only [handle_tool_call, ne_eq, not_true_eq_false, if_false, hmd, hsig, hfetch]
    exact hsum

/-- C10 (witness): an unknown tool name answers with the unknown-tool
message; the recognized name on an HTTP 404 fetch answers with the
error summary line. -/
theorem handle_tool_call_contract_witness :
    handle_tool_call "other_tool" [] (.httpError 404) = .ok "Unknown tool: other_tool" ∧
    handle_tool_call "fetch_merchant_trust_signals"
        [("merchant_domain", Json.str "acme.com")] (.httpError 404) =
      .ok "[Disclose] Could not retrieve signals for acme.com: HTTP 404: merchant may not support Disclose Framework" :=
  ⟨handle_tool_call_contract.1 "other_tool" [] (.httpError 404) (by simp),
   handle_tool_call_contract.2 [("merchant_domain", Json.str "acme.com")] (.httpError 404)
     "acme.com" none
     (DiscloseSignals.mk "acme.com" (Json.obj []) [] Json.null Json.null
       (some "HTTP 404: merchant may not support Disclose Framework"))
     "[Disclose] Could not retrieve signals for acme.com: HTTP 404: merchant may not support Disclose Framework"
     rfl rfl rfl rfl⟩
